import Mathlib

/-!
Verification of the IDM-Go download engine core against its specification.

This file is a shallow embedding of the Go sources of the download engine:
the storage layer (internal/storage: Download record, SaveDownload,
GetDownload, UpdateDownload), the queue (internal/core/queue.go: Queue.Add,
Queue.Next), and the download manager (internal/core download manager:
StartDownload, PauseDownload, executeDownload, supportsRangeRequests,
downloadWithChunks, downloadChunk, processQueue, updateStats,
newRateLimitedReader, rateLimitedReader.Read).

Modelling conventions:
- Go int64 values that are nonnegative by construction (sizes, offsets,
  chunk counts, ids, timestamps) are modelled as Nat or as nonnegative Int;
  Go integer division on nonnegative operands agrees with Nat division and
  with Int division on nonnegative Int, so the arithmetic is faithful.
- Go float64 arithmetic (progress, speed computation) is modelled over Rat.
- Network reads are modelled as the list of byte counts the successive
  Read calls return, followed by a terminal event (end of stream or a read
  failure); file writes are modelled as a recorded list of
  (offset, length) pairs and are assumed to succeed.
- A Go nil-pointer dereference or runtime panic is modelled as the none
  case of an Option result.
- Goroutine interleavings are modelled by making each operation's
  synchronous state transition explicit and composing transitions in the
  order the scenario under analysis executes them.
-/

namespace IDM

/-- Download status constants of internal/storage (StatusPending = 0,
StatusDownloading = 1, StatusPaused = 2, StatusCompleted = 3,
StatusFailed = 4, StatusCancelled = 5). -/
inductive DownloadStatus where
  | pending
  | downloading
  | paused
  | completed
  | failed
  | cancelled
deriving DecidableEq, Repr

/-- Integer code of a status as persisted by the store (int(download.Status)). -/
def DownloadStatus.code : DownloadStatus → Nat
  | .pending => 0
  | .downloading => 1
  | .paused => 2
  | .completed => 3
  | .failed => 4
  | .cancelled => 5

/-- The storage.Download record. Timestamps are modelled as integers
(nanoseconds since the epoch); Progress (a Go float64) is modelled as a
rational; Error is the Go string field (empty when unset). -/
structure Download where
  id : Int
  url : String
  filename : String
  path : String
  size : Int
  downloaded : Int
  status : DownloadStatus
  speed : Int
  progress : Rat
  createdAt : Int
  startedAt : Option Int
  completedAt : Option Int
  errorMsg : String
  chunks : Nat
deriving DecidableEq, Repr

/-- Queue.Add of internal/core/queue.go: append the record to the items slice. -/
def Queue.Add (items : List Download) (d : Download) : List Download :=
  items ++ [d]

/-- Queue.Next of internal/core/queue.go: scan the items slice in order,
remove and return the first record whose status is StatusPending; records
with other statuses are skipped and stay in place; return nil (none) and
leave the slice unchanged when no pending record exists. -/
def Queue.Next (items : List Download) : Option Download × List Download :=
  match items with
  | [] => (none, [])
  | d :: rest =>
    if d.status = DownloadStatus.pending then
      (some d, rest)
    else
      let r := Queue.Next rest
      (r.1, d :: r.2)

/-- Queue.Remove of internal/core/queue.go: delete the first entry with the
given id, if any. -/
def Queue.Remove (items : List Download) (i : Int) : List Download :=
  match items with
  | [] => []
  | d :: rest =>
    if d.id = i then rest else d :: Queue.Remove rest i

/-- Byte range of chunk i in downloadWithChunks: chunkSize := Size / Chunks;
start := i * chunkSize; end := start + chunkSize - 1, except the last chunk
(i = Chunks - 1) whose end is Size - 1. Size and the chunk index are
nonnegative int64 values, modelled over Nat. -/
def chunkRange (size chunks i : Nat) : Nat × Nat :=
  let chunkSize := size / chunks
  let start := i * chunkSize
  if i = chunks - 1 then (start, size - 1) else (start, start + chunkSize - 1)

/-- The list of the Chunks byte ranges created by the loop in
downloadWithChunks, in loop order. -/
def chunkRanges (size chunks : Nat) : List (Nat × Nat) :=
  (List.range chunks).map (chunkRange size chunks)

/-- Terminal event of a chunk's response body stream: end of stream (io.EOF)
or a non-EOF read failure. -/
inductive StreamEnd where
  | eof
  | readFail
deriving DecidableEq, Repr

/-- Errors a chunk fetch can return: the job context's cancellation error
(context.Canceled, observed in the select at the top of the read loop), or a
non-EOF read error from the response body. File writes are modelled as
always succeeding. -/
inductive ChunkErr where
  | cancelled
  | network
deriving DecidableEq, Repr

/-- Go error message carried by a chunk error. -/
def chunkErrMessage : ChunkErr → String
  | ChunkErr.cancelled => "context canceled"
  | ChunkErr.network => "network error"

/-- Outcome of downloadChunk: the returned error (none means the function
returned nil, i.e. success), the final per-chunk downloaded counter, the
final job-wide Downloaded counter, and the positional (offset, length)
writes issued, in order. -/
structure ChunkOutcome where
  err : Option ChunkErr
  chunkDownloaded : Nat
  jobDownloaded : Int
  writes : List (Nat × Nat)
deriving DecidableEq, Repr

/-- The read loop of downloadChunk. Each iteration first polls the job
context (select on ctx.Done()); cancellation makes the loop return
ctx.Err(). Otherwise the next read delivers n bytes, written at offset
start + chunk.downloaded; both the per-chunk counter and the job-wide
Downloaded counter grow by n. The stream's terminal event decides the
result: io.EOF breaks the loop and the function returns nil; any other read
error is returned as is. The cancellation flag is the (fixed) state of the
job context during the scenario under analysis. -/
def downloadChunkLoop (cancelled : Bool) (start cd : Nat) (jd : Int)
    (ws : List (Nat × Nat)) (reads : List Nat) (fin : StreamEnd) : ChunkOutcome :=
  if cancelled then
    { err := some ChunkErr.cancelled, chunkDownloaded := cd,
      jobDownloaded := jd, writes := ws }
  else
    match reads with
    | [] =>
      match fin with
      | StreamEnd.eof =>
        { err := none, chunkDownloaded := cd, jobDownloaded := jd, writes := ws }
      | StreamEnd.readFail =>
        { err := some ChunkErr.network, chunkDownloaded := cd,
          jobDownloaded := jd, writes := ws }
    | n :: rest =>
      downloadChunkLoop cancelled start (cd + n) (jd + n)
        (ws ++ [(start + cd, n)]) rest fin

/-- downloadChunk for the range from chunkStart to chunkEnd (inclusive, the
Range request header is bytes=chunkStart-chunkEnd): runs the read loop with
the per-chunk counter at 0 and the job-wide counter at its current value
jd0 (the Downloaded field of the record the job was started from). -/
def downloadChunk (cancelled : Bool) (chunkStart chunkEnd : Nat) (jd0 : Int)
    (reads : List Nat) (fin : StreamEnd) : ChunkOutcome :=
  let _ := chunkEnd
  downloadChunkLoop cancelled chunkStart 0 jd0 [] reads fin

/-- Number of bytes of the inclusive range from s to e. -/
def rangeLen (s e : Nat) : Nat := e - s + 1

/-- First non-nil error drained from errChan in downloadWithChunks (only
non-nil chunk errors are sent on the channel; the first one is returned). -/
def firstChunkError (rs : List (Option ChunkErr)) : Option ChunkErr :=
  rs.findSome? id

/-- Terminal transition of executeDownload: a non-nil aggregated error sets
StatusFailed and stores the error message; nil sets StatusCompleted, stamps
CompletedAt and sets Progress to 100. The record is then persisted
(updateDownload) — this is the last write the runner makes for the record. -/
def executeDownloadFinalize (d : Download) (err : Option ChunkErr)
    (now : Int) : Download :=
  match err with
  | some e => { d with status := DownloadStatus.failed, errorMsg := chunkErrMessage e }
  | none =>
    { d with
      status := DownloadStatus.completed
      completedAt := some now
      progress := 100 }

/-- PauseDownload on a registered job: cancels the job context and persists
the record with StatusPaused (counters untouched). -/
def PauseDownload (d : Download) : Download :=
  { d with status := DownloadStatus.paused }

/-- Persisted row of the downloads table. Columns absent from an INSERT take
their SQL defaults: speed 0, progress 0, started_at NULL, completed_at
NULL, error NULL. The error column is TEXT and nullable, modelled as
Option String. -/
structure StoreRow where
  url : String
  filename : String
  path : String
  size : Int
  downloaded : Int
  statusCode : Nat
  speed : Int
  progress : Rat
  createdAt : Int
  startedAt : Option Int
  completedAt : Option Int
  errorCol : Option String
  chunks : Nat
deriving DecidableEq, Repr

/-- Next AUTOINCREMENT id: one past the largest id ever used (ids start
at 1). -/
def nextId (db : List (Int × StoreRow)) : Int :=
  (db.map Prod.fst).foldr max 0 + 1

/-- SaveDownload: INSERT INTO downloads (url, filename, path, size,
downloaded, status, chunks, created_at) VALUES (...); the remaining columns
(speed, progress, started_at, completed_at, error) take their defaults.
Returns the new row id. -/
def SaveDownload (db : List (Int × StoreRow)) (d : Download) :
    Int × List (Int × StoreRow) :=
  let i := nextId db
  (i, db ++ [(i,
    { url := d.url, filename := d.filename, path := d.path, size := d.size,
      downloaded := d.downloaded, statusCode := d.status.code, speed := 0,
      progress := 0, createdAt := d.createdAt, startedAt := none,
      completedAt := none, errorCol := none, chunks := d.chunks })])

/-- Row lookup by id (SELECT ... WHERE id = ?). -/
def lookupRow (db : List (Int × StoreRow)) (i : Int) : Option StoreRow :=
  (db.find? (fun p => p.1 = i)).map Prod.snd

/-- Status decoded from its persisted integer code (the Go scan casts the
stored integer directly into the DownloadStatus field; stored codes are
always 0..5). -/
def DownloadStatus.ofCode (n : Nat) : DownloadStatus :=
  match n with
  | 0 => DownloadStatus.pending
  | 1 => DownloadStatus.downloading
  | 2 => DownloadStatus.paused
  | 3 => DownloadStatus.completed
  | 4 => DownloadStatus.failed
  | _ => DownloadStatus.cancelled

/-- Failure modes of GetDownload: no row (sql.ErrNoRows), or the row Scan
failing. Scanning the nullable error TEXT column into the plain Go string
field Download.Error fails when the column is NULL (database/sql:
converting NULL to string is unsupported); started_at and completed_at are
scanned through sql.NullTime and tolerate NULL. -/
inductive ScanErr where
  | notFound
  | nullToString
deriving DecidableEq, Repr

/-- GetDownload: SELECT the row by id and Scan it into a Download. -/
def GetDownload (db : List (Int × StoreRow)) (i : Int) :
    Except ScanErr Download :=
  match lookupRow db i with
  | none => Except.error ScanErr.notFound
  | some r =>
    match r.errorCol with
    | none => Except.error ScanErr.nullToString
    | some e =>
      Except.ok
        { id := i, url := r.url, filename := r.filename, path := r.path,
          size := r.size, downloaded := r.downloaded,
          status := DownloadStatus.ofCode r.statusCode, speed := r.speed,
          progress := r.progress, createdAt := r.createdAt,
          startedAt := r.startedAt, completedAt := r.completedAt,
          errorMsg := e, chunks := r.chunks }

/-- UpdateDownload: UPDATE downloads SET downloaded, status, speed,
progress, started_at, completed_at, error WHERE id = ?. The error column is
written from the Go string field, so it is non-NULL afterwards. -/
def UpdateDownload (db : List (Int × StoreRow)) (d : Download) :
    List (Int × StoreRow) :=
  db.map (fun p =>
    if p.1 = d.id then
      (p.1,
        { p.2 with
          downloaded := d.downloaded
          statusCode := d.status.code
          speed := d.speed
          progress := d.progress
          startedAt := d.startedAt
          completedAt := d.completedAt
          errorCol := some d.errorMsg })
    else p)

/-- Result of the HEAD probe in supportsRangeRequests, when the request does
not fault: none models a transport error, some carries the Accept-Ranges
header value (none inside when the header is absent). -/
structure HeadResponse where
  acceptRanges : Option String
deriving DecidableEq, Repr

/-- supportsRangeRequests: builds a HEAD request and sends it through
dm.downloads[0].client. The registry is keyed by record id; when no job
with key 0 is registered the map access yields the zero value nil and the
client field dereference is a nil-pointer fault, modelled as none. With a
job at key 0, a transport error returns false, and otherwise the result is
whether the Accept-Ranges header value equals bytes. -/
def supportsRangeRequests (registry : List Int) (head : Option HeadResponse) :
    Option Bool :=
  if 0 ∈ registry then
    some (match head with
      | none => false
      | some r => if r.acceptRanges = some "bytes" then true else false)
  else
    none

/-- Process-wide configuration (internal/core DownloadConfig). -/
structure DownloadConfig where
  maxConcurrentDownloads : Int
  chunkSize : Int
  maxSpeed : Int
  retryAttempts : Int
  userAgent : String
  timeoutSeconds : Int
deriving DecidableEq, Repr

/-- DefaultConfig of internal/core. -/
def DefaultConfig : DownloadConfig :=
  { maxConcurrentDownloads := 3, chunkSize := 1048576, maxSpeed := 0,
    retryAttempts := 3, userAgent := "IDM-Go/1.0", timeoutSeconds := 30 }

/-- Manager state for the admission analysis: the downloads table, the
registry of live jobs (dm.downloads keys), the atomic activeDownloads
counter, and the queue items. -/
structure MgrState where
  db : List (Int × StoreRow)
  jobs : List Int
  active : Int
  queue : List Download
deriving DecidableEq, Repr

/-- Go map assignment dm.downloads[id] = job: overwrites an existing key,
otherwise adds it. -/
def registryInsert (l : List Int) (i : Int) : List Int :=
  if i ∈ l then l else l ++ [i]

/-- Errors StartDownload can return: the error storage.GetDownload returned
(passed through unchanged — in particular the NULL-error-column Scan
failure of any row never written by UpdateDownload), or the
"download already in progress" guard. -/
inductive StartErr where
  | store (e : ScanErr)
  | alreadyRunning
deriving DecidableEq, Repr

/-- StartDownload (synchronous part): loads the record with
storage.GetDownload, returning its error unchanged when the load fails; if
the loaded record's status is StatusDownloading the call fails with
"download already in progress"; otherwise a job is constructed and
registered under the record id and the runner goroutine is launched. The
activeDownloads counter and the registry size are never consulted. -/
def StartDownload (s : MgrState) (i : Int) : Except StartErr MgrState :=
  match GetDownload s.db i with
  | Except.error e => Except.error (StartErr.store e)
  | Except.ok download =>
    if download.status = DownloadStatus.downloading then
      Except.error StartErr.alreadyRunning
    else
      Except.ok { s with jobs := registryInsert s.jobs i }

/-- Issue a sequence of direct StartDownload calls; a failing call leaves
the state unchanged. -/
def startAll (s : MgrState) (ids : List Int) : MgrState :=
  ids.foldl (fun st i =>
    match StartDownload st i with
    | Except.ok s2 => s2
    | Except.error _ => st) s

/-- One tick of processQueue: only when activeDownloads is strictly below
MaxConcurrentDownloads is a record dequeued and started; otherwise the tick
does nothing. Returns the new state and the id started, if any. -/
def processQueueTick (s : MgrState) (maxConcurrent : Int) :
    MgrState × Option Int :=
  if s.active < maxConcurrent then
    match Queue.Next s.queue with
    | (some d, q2) =>
      match StartDownload { s with queue := q2 } d.id with
      | Except.ok s2 => (s2, some d.id)
      | Except.error _ => ({ s with queue := q2 }, none)
    | (none, q2) => ({ s with queue := q2 }, none)
  else
    (s, none)

/-- Runtime view of a job as the statistics loop reads it. Times are in
seconds, modelled over Rat (Go time.Duration.Seconds() is a float64);
lastUpdate = 0 models the Go zero time. -/
structure StatJob where
  size : Int
  downloaded : Int
  status : DownloadStatus
  progress : Rat
  speed : Int
  startedAt : Rat
  lastUpdate : Rat
deriving DecidableEq, Repr

/-- One statistics tick for one job (updateStats body): only jobs whose
status is StatusDownloading are touched. Progress becomes
Downloaded / Size * 100 when Size > 0 (otherwise it is left alone); Speed
becomes int64(Downloaded / (now - lastUpdate).Seconds()) when lastUpdate is
not the zero time and the duration is positive; lastUpdate is then set to
now and the record is persisted and emitted to the callbacks (the returned
flag). -/
def updateStatsStep (j : StatJob) (now : Rat) : StatJob × Bool :=
  if j.status = DownloadStatus.downloading then
    let p := if 0 < j.size then (j.downloaded : Rat) / (j.size : Rat) * 100
             else j.progress
    let sp := if j.lastUpdate ≠ 0 ∧ 0 < now - j.lastUpdate then
                Int.floor ((j.downloaded : Rat) / (now - j.lastUpdate))
              else j.speed
    ({ j with progress := p, speed := sp, lastUpdate := now }, true)
  else
    (j, false)

/-- Modelled from the spec for the refinement comparison of C8: the speed
the specification prescribes, downloaded divided by the time elapsed since
started_at. -/
def specSpeedSinceStart (j : StatJob) (now : Rat) : Rat :=
  (j.downloaded : Rat) / (now - j.startedAt)

/-- Ticker period of newRateLimitedReader in nanoseconds:
time.Second / time.Duration(maxBytesPerSecond / 1024). The divisor uses
truncating integer division; when it is zero (maxBytesPerSecond < 1024) the
duration division is an integer division by zero and the constructor
panics, modelled as none (a nonpositive divisor would likewise make
time.NewTicker panic). -/
def tickerPeriodNs (maxBytesPerSecond : Int) : Option Int :=
  let k := maxBytesPerSecond / 1024
  if k ≤ 0 then none else some (1000000000 / k)

/-- Modelled from the spec for the refinement comparison of C7: the period
of a ticker releasing permits at ceil(maxBytesPerSecond / 1024) Hz. -/
def specCeilTickerPeriodNs (maxBytesPerSecond : Int) : Int :=
  1000000000 / ((maxBytesPerSecond + 1023) / 1024)

/-- One tick of the limiter goroutine: the permit channel has capacity one
and the select drops the tick when the channel is full, so idle time never
accrues more than a single permit. -/
def limiterTick (slots : Nat) : Nat :=
  if slots = 0 then 1 else slots

/-- rateLimitedReader.Read: block on the permit channel (none when no permit
is available, i.e. the read cannot proceed yet), then delegate one read to
the underlying source, passing the caller's buffer through unmodified.
Returns the remaining permits, the rest of the source, and the bytes the
underlying read delivered. -/
def rateLimitedRead (slots : Nat) (source : List Nat) :
    Option (Nat × List Nat × Nat) :=
  match slots with
  | 0 => none
  | Nat.succ s =>
    match source with
    | [] => some (s, [], 0)
    | n :: rest => some (s, rest, n)

/-- Sample record used by witnesses and counterexamples. -/
def sampleDownload : Download :=
  { id := 1
    url := "http://example.com/a.bin"
    filename := "a.bin"
    path := "/tmp"
    size := 4096
    downloaded := 0
    status := DownloadStatus.pending
    speed := 0
    progress := 0
    createdAt := 0
    startedAt := none
    completedAt := none
    errorMsg := ""
    chunks := 4 }

/-- A downloads table reached by the program: four records inserted by
SaveDownload (ids 1..4) and then each persisted as Paused by PauseDownload
(whose updateDownload writes the error column, making later loads
succeed). -/
def demoDB : List (Int × StoreRow) :=
  let d1 := SaveDownload [] sampleDownload
  let d2 := SaveDownload d1.2 sampleDownload
  let d3 := SaveDownload d2.2 sampleDownload
  let d4 := SaveDownload d3.2 sampleDownload
  let pauseOne := fun (db : List (Int × StoreRow)) (i : Int) =>
    UpdateDownload db
      (PauseDownload { sampleDownload with id := i, status := DownloadStatus.downloading })
  pauseOne (pauseOne (pauseOne (pauseOne d4.2 1) 2) 3) 4

/-- Sample job state one second into a download, as the second statistics
tick sees it: started at time 0, previous tick (lastUpdate) at time 1. -/
def statJobDemo : StatJob :=
  { size := 1000
    downloaded := 100
    status := DownloadStatus.downloading
    progress := 0
    speed := 0
    startedAt := 0
    lastUpdate := 1 }

theorem Queue_Next_none_of_no_pending (l : List Download)
    (h : ∀ d ∈ l, d.status ≠ DownloadStatus.pending) :
    Queue.Next l = (none, l) := by
  induction l with
  | nil => rfl
  | cons d rest ih =>
    have hd : d.status ≠ DownloadStatus.pending := h d (by simp)
    have hrest : ∀ x ∈ rest, x.status ≠ DownloadStatus.pending := by
      intro x hx
      exact h x (by simp [hx])
    simp [Queue.Next, hd, ih hrest]

theorem Queue_Next_first_pending (l1 : List Download) (d : Download)
    (l2 : List Download) (h1 : ∀ x ∈ l1, x.status ≠ DownloadStatus.pending)
    (hd : d.status = DownloadStatus.pending) :
    Queue.Next (l1 ++ d :: l2) = (some d, l1 ++ l2) := by
  induction l1 with
  | nil => simp [Queue.Next, hd]
  | cons x rest ih =>
    have hx : x.status ≠ DownloadStatus.pending := h1 x (by simp)
    have hrest : ∀ y ∈ rest, y.status ≠ DownloadStatus.pending := by
      intro y hy
      exact h1 y (by simp [hy])
    simp [Queue.Next, hx, ih hrest]

/-- C9: Queue.Next returns and removes the earliest-added pending record,
skipping non-pending records and leaving them in place in their relative
order; it returns none (and leaves the queue unchanged) when no pending
record exists; consequently pending records enqueued in order a, b, c are
dequeued in order a, b, c. -/
theorem queue_next_fifo_spec :
    (∀ (l : List Download), (∀ d ∈ l, d.status ≠ DownloadStatus.pending) →
      Queue.Next l = (none, l))
    ∧ (∀ (l1 : List Download) (d : Download) (l2 : List Download),
        (∀ x ∈ l1, x.status ≠ DownloadStatus.pending) →
        d.status = DownloadStatus.pending →
        Queue.Next (l1 ++ d :: l2) = (some d, l1 ++ l2))
    ∧ (∀ a b c : Download, a.status = DownloadStatus.pending →
        b.status = DownloadStatus.pending →
        c.status = DownloadStatus.pending →
        Queue.Next (Queue.Add (Queue.Add (Queue.Add [] a) b) c) = (some a, [b, c])
        ∧ Queue.Next [b, c] = (some b, [c])
        ∧ Queue.Next [c] = (some c, [])) := by
  refine ⟨Queue_Next_none_of_no_pending, Queue_Next_first_pending, ?_⟩
  intro a b c ha hb hc
  refine ⟨?_, ?_, ?_⟩
  · simp [Queue.Add, Queue.Next, ha]
  · simp [Queue.Next, hb]
  · simp [Queue.Next, hc]

/-- Witness for C9 at concrete inputs: three pending records with ids
1, 2, 3 are dequeued first-in first-out, and a queue holding one completed
record yields none. -/
theorem queue_next_fifo_spec_witness :
    (Queue.Next [{ sampleDownload with status := DownloadStatus.completed }]
      = (none, [{ sampleDownload with status := DownloadStatus.completed }]))
    ∧ Queue.Next [{ sampleDownload with id := 1 }, { sampleDownload with id := 2 },
        { sampleDownload with id := 3 }]
      = (some { sampleDownload with id := 1 },
         [{ sampleDownload with id := 2 }, { sampleDownload with id := 3 }]) := by
  constructor
  · exact queue_next_fifo_spec.1 _ (by intro d hd; simp at hd; simp [hd, sampleDownload])
  · exact queue_next_fifo_spec.2.1 [] { sampleDownload with id := 1 }
      [{ sampleDownload with id := 2 }, { sampleDownload with id := 3 }]
      (by intro x hx; simp at hx) (by simp [sampleDownload])

lemma chunkSize_pos {size chunks : Nat} (hc : 0 < chunks) (hS : chunks ≤ size) :
    1 ≤ size / chunks :=
  (Nat.one_le_div_iff hc).mpr hS

lemma chunkRange_mid {size chunks i : Nat} (hi : i < chunks - 1) :
    chunkRange size chunks i
      = (i * (size / chunks), (i + 1) * (size / chunks) - 1) := by
  have hne : i ≠ chunks - 1 := by omega
  have hsm : (i + 1) * (size / chunks) = i * (size / chunks) + size / chunks :=
    Nat.succ_mul i (size / chunks)
  simp only [chunkRange, hne, if_false]
  rw [hsm]

lemma chunkRange_last (size chunks : Nat) :
    chunkRange size chunks (chunks - 1)
      = ((chunks - 1) * (size / chunks), size - 1) := by
  simp [chunkRange]

lemma chunkRange_disjoint {size chunks i j : Nat} (hc : 0 < chunks)
    (hS : chunks ≤ size) (hij : i < j) (hj : j < chunks) :
    (chunkRange size chunks i).2 < (chunkRange size chunks j).1 := by
  have hq : 1 ≤ size / chunks := chunkSize_pos hc hS
  have hi : i < chunks - 1 := by omega
  rw [chunkRange_mid hi]
  have hstart : (chunkRange size chunks j).1 = j * (size / chunks) := by
    by_cases hjlast : j = chunks - 1
    · rw [hjlast, chunkRange_last]
    · rw [chunkRange_mid (by omega)]
  rw [hstart]
  have hmul : (i + 1) * (size / chunks) ≤ j * (size / chunks) :=
    Nat.mul_le_mul_right _ (by omega)
  have hpos : 1 ≤ (i + 1) * (size / chunks) :=
    le_trans hq (Nat.le_mul_of_pos_left _ (by omega))
  omega

lemma chunkRange_covers {size chunks x : Nat} (hc : 0 < chunks)
    (hS : chunks ≤ size) (hx : x ≤ size - 1) :
    ∃ i, i < chunks ∧ (chunkRange size chunks i).1 ≤ x
      ∧ x ≤ (chunkRange size chunks i).2 := by
  have hq : 1 ≤ size / chunks := chunkSize_pos hc hS
  by_cases h : x / (size / chunks) < chunks - 1
  · refine ⟨x / (size / chunks), by omega, ?_, ?_⟩
    · rw [chunkRange_mid h]
      exact Nat.div_mul_le_self x (size / chunks)
    · rw [chunkRange_mid h]
      have hdm : (size / chunks) * (x / (size / chunks)) + x % (size / chunks) = x :=
        Nat.div_add_mod x (size / chunks)
      have hmod : x % (size / chunks) < size / chunks := Nat.mod_lt x (by omega)
      have hsm : (x / (size / chunks) + 1) * (size / chunks)
          = x / (size / chunks) * (size / chunks) + size / chunks :=
        Nat.succ_mul _ _
      have hcomm : (size / chunks) * (x / (size / chunks))
          = x / (size / chunks) * (size / chunks) := Nat.mul_comm _ _
      omega
  · refine ⟨chunks - 1, by omega, ?_, ?_⟩
    · rw [chunkRange_last]
      have h1 : (chunks - 1) * (size / chunks)
          ≤ (x / (size / chunks)) * (size / chunks) :=
        Nat.mul_le_mul_right _ (by omega)
      have h2 : (x / (size / chunks)) * (size / chunks) ≤ x :=
        Nat.div_mul_le_self x (size / chunks)
      omega
    · rw [chunkRange_last]
      exact hx

lemma chunkRange_within {size chunks i : Nat} (hc : 0 < chunks)
    (hi : i < chunks) :
    (chunkRange size chunks i).2 ≤ size - 1 := by
  by_cases hlast : i = chunks - 1
  · rw [hlast, chunkRange_last]
  · have hmid : i < chunks - 1 := by omega
    rw [chunkRange_mid hmid]
    have h1 : (i + 1) * (size / chunks) ≤ chunks * (size / chunks) :=
      Nat.mul_le_mul_right _ (by omega)
    have h2 : size / chunks * chunks ≤ size := Nat.div_mul_le_self size chunks
    have h3 : chunks * (size / chunks) = size / chunks * chunks := Nat.mul_comm _ _
    omega

/-- C5: for a ranged download of size S with c chunks, 1 ≤ c ≤ S, the loop
in downloadWithChunks creates exactly c ranges; chunk i with i < c - 1 owns
the bytes from i * (S / c) to (i + 1) * (S / c) - 1, the last chunk owns the
bytes from (c - 1) * (S / c) to S - 1; the ranges are strictly ordered
(hence pairwise disjoint) and their union is exactly the interval
from 0 to S - 1. -/
theorem chunk_partition_spec (S c : Nat) (hc : 1 ≤ c) (hS : c ≤ S) :
    (chunkRanges S c).length = c
    ∧ (∀ i, i < c - 1 →
        chunkRange S c i = (i * (S / c), (i + 1) * (S / c) - 1))
    ∧ chunkRange S c (c - 1) = ((c - 1) * (S / c), S - 1)
    ∧ (∀ i j, i < j → j < c →
        (chunkRange S c i).2 < (chunkRange S c j).1)
    ∧ (∀ x, x ≤ S - 1 ↔
        ∃ i, i < c ∧ (chunkRange S c i).1 ≤ x ∧ x ≤ (chunkRange S c i).2) := by
  refine ⟨by simp [chunkRanges], fun i hi => chunkRange_mid hi,
    chunkRange_last S c, fun i j hij hj => chunkRange_disjoint hc hS hij hj, ?_⟩
  intro x
  constructor
  · exact fun hx => chunkRange_covers hc hS hx
  · rintro ⟨i, hi, _, hxe⟩
    exact le_trans hxe (chunkRange_within hc hi)

/-- Witness for C5 at S = 4096, c = 4: four ranges, the last being
(3072, 4095), and byte 2048 is covered. -/
theorem chunk_partition_spec_witness :
    (chunkRanges 4096 4).length = 4
    ∧ chunkRange 4096 4 (4 - 1) = ((4 - 1) * (4096 / 4), 4096 - 1)
    ∧ (2048 ≤ 4096 - 1 ↔
        ∃ i, i < 4 ∧ (chunkRange 4096 4 i).1 ≤ 2048
          ∧ 2048 ≤ (chunkRange 4096 4 i).2) := by
  have h := chunk_partition_spec 4096 4 (by norm_num) (by norm_num)
  exact ⟨h.1, h.2.2.1, h.2.2.2.2 2048⟩

lemma downloadChunkLoop_err (start : Nat) (reads : List Nat) :
    ∀ (cd : Nat) (jd : Int) (ws : List (Nat × Nat)) (fin : StreamEnd),
      (downloadChunkLoop false start cd jd ws reads fin).err
        = (match fin with
           | StreamEnd.eof => none
           | StreamEnd.readFail => some ChunkErr.network) := by
  induction reads with
  | nil =>
    intro cd jd ws fin
    cases fin <;> rfl
  | cons n rest ih =>
    intro cd jd ws fin
    simpa [downloadChunkLoop] using ih (cd + n) (jd + n) (ws ++ [(start + cd, n)]) fin

lemma downloadChunkLoop_jd (start : Nat) (reads : List Nat) :
    ∀ (cd : Nat) (jd : Int) (ws : List (Nat × Nat)) (fin : StreamEnd),
      (downloadChunkLoop false start cd jd ws reads fin).jobDownloaded
        = jd + (reads.sum : Int) := by
  induction reads with
  | nil =>
    intro cd jd ws fin
    cases fin <;> simp [downloadChunkLoop]
  | cons n rest ih =>
    intro cd jd ws fin
    have h := ih (cd + n) (jd + n) (ws ++ [(start + cd, n)]) fin
    simp only [downloadChunkLoop, if_neg (by simp : ¬ false = true)] at h ⊢
    rw [h, List.sum_cons]
    push_cast
    ring

lemma downloadChunkLoop_cd (start : Nat) (reads : List Nat) :
    ∀ (cd : Nat) (jd : Int) (ws : List (Nat × Nat)) (fin : StreamEnd),
      (downloadChunkLoop false start cd jd ws reads fin).chunkDownloaded
        = cd + reads.sum := by
  induction reads with
  | nil =>
    intro cd jd ws fin
    cases fin <;> simp [downloadChunkLoop]
  | cons n rest ih =>
    intro cd jd ws fin
    have h := ih (cd + n) (jd + n) (ws ++ [(start + cd, n)]) fin
    simp only [downloadChunkLoop, if_neg (by simp : ¬ false = true)] at h ⊢
    rw [h, List.sum_cons]
    omega

/-- C4: the claim that a short read (end of stream before the full range
was delivered) terminates the chunk fetch with an error is false at a
concrete input: for the range from 0 to 9 (10 bytes) a stream delivering a
single 1-byte read and then end-of-stream makes downloadChunk return nil
(success) with only 1 byte downloaded. -/
theorem chunk_short_read_success_cx :
    (downloadChunk false 0 9 0 [1] StreamEnd.eof).err = none
    ∧ (downloadChunk false 0 9 0 [1] StreamEnd.eof).chunkDownloaded = 1
    ∧ rangeLen 0 9 = 10
    ∧ (1 : Nat) < rangeLen 0 9 := by
  decide

/-- C4 as amended: without cancellation, reaching end-of-stream makes
downloadChunk return success no matter how many bytes were read (the per
chunk counter ends at the sum of the reads, with no comparison against the
range length), and only a non-EOF read error terminates the fetch with an
error. -/
theorem chunk_eof_always_succeeds (s e : Nat) (jd : Int) (reads : List Nat) :
    (downloadChunk false s e jd reads StreamEnd.eof).err = none
    ∧ (downloadChunk false s e jd reads StreamEnd.eof).chunkDownloaded = reads.sum
    ∧ (downloadChunk false s e jd reads StreamEnd.readFail).err
        = some ChunkErr.network := by
  refine ⟨?_, ?_, ?_⟩
  · exact downloadChunkLoop_err s reads 0 jd [] StreamEnd.eof
  · have h := downloadChunkLoop_cd s reads 0 jd [] StreamEnd.eof
    simpa [downloadChunk] using h
  · exact downloadChunkLoop_err s reads 0 jd [] StreamEnd.readFail

/-- C2: the claim that starting a record carrying a persisted non-zero
downloaded value never drives downloaded above total_size is false at a
concrete input: a record of total size 4096 restarted with persisted
downloaded = 100 (as StartDownload loads it) has its four chunks re-fetch
their full ranges from zero, and the job-wide counter ends at
100 + 4096 = 4196 > 4096. -/
theorem resumed_start_overruns_size_cx :
    ((chunkRanges 4096 4).foldl
      (fun jd r =>
        (downloadChunk false r.1 r.2 jd [rangeLen r.1 r.2] StreamEnd.eof).jobDownloaded)
      100 = 4196)
    ∧ (4096 : Int) < 4196 := by
  decide

/-- C2 as amended: the job-wide downloaded counter only grows, by exactly
the bytes delivered: after a chunk fetch it equals its initial value plus
the sum of the reads, hence it stays at least its initial value and at
least 0; downloaded ≤ total_size is guaranteed only for a run whose initial
counter is 0 and whose delivered bytes do not exceed the requested range,
while a restart with a persisted non-zero counter exceeds total_size as
soon as the full content is delivered again. -/
theorem downloaded_counter_amended (s e : Nat) (jd0 : Int) (reads : List Nat)
    (fin : StreamEnd) (h0 : 0 ≤ jd0) :
    (downloadChunk false s e jd0 reads fin).jobDownloaded = jd0 + (reads.sum : Int)
    ∧ jd0 ≤ (downloadChunk false s e jd0 reads fin).jobDownloaded
    ∧ 0 ≤ (downloadChunk false s e jd0 reads fin).jobDownloaded
    ∧ (jd0 = 0 → (reads.sum : Int) ≤ (rangeLen s e : Int) →
        (downloadChunk false s e jd0 reads fin).jobDownloaded ≤ (rangeLen s e : Int)) := by
  have h : (downloadChunk false s e jd0 reads fin).jobDownloaded
      = jd0 + (reads.sum : Int) := by
    simpa [downloadChunk] using downloadChunkLoop_jd s reads 0 jd0 [] fin
  have hsum : (0 : Int) ≤ (reads.sum : Int) := Int.ofNat_nonneg _
  refine ⟨h, by omega, by omega, ?_⟩
  intro hz hle
  omega

/-- Witness for C2's amended statement at a concrete input: a fresh chunk
(initial counter 0) over the range from 0 to 1023 receiving one 512-byte
read keeps the counter nonnegative. -/
theorem downloaded_counter_amended_witness :
    0 ≤ (downloadChunk false 0 1023 0 [512] StreamEnd.eof).jobDownloaded :=
  (downloaded_counter_amended 0 1023 0 [512] StreamEnd.eof (by norm_num)).2.2.1

/-- C1: cooperative cancellation triggered by PauseDownload does reach
StatusFailed. At the concrete failing input — a downloading record whose
job context is cancelled by pause — the chunk returns the context's
cancellation error, PauseDownload persists StatusPaused, but the runner's
terminal transition (executeDownloadFinalize, the last write for the
record) maps the non-nil aggregated error to StatusFailed with the error
message "context canceled", contradicting the claim that pause ends in
Paused and that cancellation never results in Failed. -/
theorem pause_cancellation_reaches_failed :
    (downloadChunk true 0 1023 0 [] StreamEnd.eof).err = some ChunkErr.cancelled
    ∧ (PauseDownload { sampleDownload with status := DownloadStatus.downloading }).status
        = DownloadStatus.paused
    ∧ (executeDownloadFinalize
        (PauseDownload { sampleDownload with status := DownloadStatus.downloading })
        (firstChunkError [(downloadChunk true 0 1023 0 [] StreamEnd.eof).err]) 5).status
        = DownloadStatus.failed
    ∧ (executeDownloadFinalize
        (PauseDownload { sampleDownload with status := DownloadStatus.downloading })
        (firstChunkError [(downloadChunk true 0 1023 0 [] StreamEnd.eof).err]) 5).errorMsg
        = "context canceled"
    ∧ DownloadStatus.failed ≠ DownloadStatus.paused := by
  decide

/-- C3: the range probe faults instead of deciding range support. The
registry is keyed by record id and SQLite ids start at 1, so
dm.downloads[0] is the nil zero value and the client dereference in
supportsRangeRequests is a nil-pointer fault (modelled as none) — even
when the origin would answer the HEAD with Accept-Ranges bytes; in general
the probe faults for every registry whose keys are all at least 1,
whatever the HEAD outcome. -/
theorem supports_range_probe_faults :
    supportsRangeRequests [1] (some { acceptRanges := some "bytes" }) = none
    ∧ (∀ (ids : List Int), (∀ i ∈ ids, 1 ≤ i) →
        ∀ h : Option HeadResponse, supportsRangeRequests ids h = none) := by
  constructor
  · decide
  · intro ids hids h
    have h0 : (0 : Int) ∉ ids := by
      intro hmem
      have := hids 0 hmem
      omega
    simp [supportsRangeRequests, h0]

/-- Witness for C3's general part: a registry holding jobs 1 and 2 with a
failed HEAD probe still faults. -/
theorem supports_range_probe_faults_witness :
    supportsRangeRequests [1, 2] none = none :=
  supports_range_probe_faults.2 [1, 2]
    (by
      intro i hi
      simp at hi
      rcases hi with h | h <;> omega)
    none

/-- C6: the insert-get round trip fails outright. At the concrete failing
input — SaveDownload of a record into an empty store, then GetDownload of
the returned id — the scan of the NULL error column into the plain Go
string field makes GetDownload return an error instead of the record;
moreover the INSERT omits the speed and progress columns, so a record
inserted with speed 7 and progress 55 is stored with speed 0 and
progress 0. -/
theorem store_insert_get_scan_fails :
    GetDownload (SaveDownload [] sampleDownload).2 (SaveDownload [] sampleDownload).1
      = Except.error ScanErr.nullToString
    ∧ ((lookupRow (SaveDownload []
          { sampleDownload with speed := 7, progress := 55 }).2 1).map
        (fun r => (r.speed, r.progress))) = some (0, 0) :=
  ⟨rfl, rfl⟩

/-- C7: the claim that permits are released at ceil(max_bytes_per_second /
1024) Hz is false at a concrete input: for max_bytes_per_second = 1500 the
code's ticker period is one second (1500 / 1024 truncates to 1, one permit
per second), while the claimed ceil rate of 2 Hz would give half a second. -/
theorem rate_limiter_ceil_cx :
    tickerPeriodNs 1500 = some 1000000000
    ∧ specCeilTickerPeriodNs 1500 = 500000000
    ∧ tickerPeriodNs 1500 ≠ some (specCeilTickerPeriodNs 1500) := by
  decide

/-- C7 as amended: for max_bytes_per_second ≥ 1024 the ticker releases
permits at floor(max_bytes_per_second / 1024) Hz (period one second divided
by the truncated quotient); for 0 < max_bytes_per_second < 1024 the
constructor faults (integer division by zero); the permit channel holds at
most one permit and idle ticks accrue no extra credit; a read blocks while
no permit is available and otherwise consumes one permit and delegates a
single read to the underlying source, passing its result through
unmodified. -/
theorem rate_limiter_amended (m : Int) (s n : Nat) (rest : List Nat)
    (hm : 1024 ≤ m) (hs : s ≤ 1) :
    tickerPeriodNs m = some (1000000000 / (m / 1024))
    ∧ (∀ k : Int, 0 < k → k < 1024 → tickerPeriodNs k = none)
    ∧ limiterTick s = 1
    ∧ limiterTick (limiterTick s) = limiterTick s
    ∧ rateLimitedRead 0 (n :: rest) = none
    ∧ rateLimitedRead (s + 1) (n :: rest) = some (s, rest, n) := by
  refine ⟨?_, ?_, ?_, ?_, rfl, rfl⟩
  · have h1 : (1 : Int) ≤ m / 1024 := by
      have := Int.le_ediv_iff_mul_le (a := 1) (b := m) (c := 1024) (by norm_num)
      exact this.mpr (by omega)
    simp [tickerPeriodNs]
    omega
  · intro k hk0 hk
    have hz : k / 1024 = 0 := Int.ediv_eq_zero_of_lt (by omega) hk
    simp [tickerPeriodNs, hz]
  · have : s = 0 ∨ s = 1 := by omega
    rcases this with h | h <;> subst h <;> decide
  · have : s = 0 ∨ s = 1 := by omega
    rcases this with h | h <;> subst h <;> decide

/-- Witness for C7's amended statement at max_bytes_per_second = 2048 with
one pending permit and a single 3-byte source read. -/
theorem rate_limiter_amended_witness :
    tickerPeriodNs 2048 = some (1000000000 / (2048 / 1024))
    ∧ rateLimitedRead (1 + 1) (3 :: []) = some (1, [], 3) := by
  have h := rate_limiter_amended 2048 1 3 [] (by norm_num) (by norm_num)
  exact ⟨h.1, h.2.2.2.2.2⟩

/-- C8: the claim that speed is computed from the time elapsed since
started_at is false at a concrete input: one job started at time 0 whose
previous statistics tick was at time 1, observed at time 2 with 100 bytes
downloaded, gets speed 100 (downloaded divided by the one second since
lastUpdate), while downloaded divided by the two seconds since started_at
is 50. -/
theorem stats_speed_denominator_cx :
    (updateStatsStep statJobDemo 2).1.speed = 100
    ∧ specSpeedSinceStart statJobDemo 2 = 50
    ∧ (((updateStatsStep statJobDemo 2).1.speed : Rat)
        ≠ specSpeedSinceStart statJobDemo 2) := by
  have hspeed : (updateStatsStep statJobDemo 2).1.speed = 100 := by
    norm_num [updateStatsStep, statJobDemo]
  have hspec : specSpeedSinceStart statJobDemo 2 = 50 := by
    norm_num [specSpeedSinceStart, statJobDemo]
  refine ⟨hspeed, hspec, ?_⟩
  rw [hspeed, hspec]
  norm_num

/-- C8 as amended: on a statistics tick, for a job in Downloading status
with total_size > 0, a non-zero lastUpdate and a positive elapsed interval,
progress is set to downloaded / total_size × 100, speed is set to
downloaded divided by the time elapsed since lastUpdate (the previous
statistics tick, not started_at, truncated to int64), lastUpdate is moved
to now, and the record is persisted and emitted; a Downloading job with
total_size = 0 keeps its progress. -/
theorem update_stats_amended (j : StatJob) (now : Rat)
    (hst : j.status = DownloadStatus.downloading) (hsz : 0 < j.size)
    (hlu : j.lastUpdate ≠ 0) (hnow : j.lastUpdate < now) :
    (updateStatsStep j now).1.progress = (j.downloaded : Rat) / (j.size : Rat) * 100
    ∧ (updateStatsStep j now).1.speed
        = Int.floor ((j.downloaded : Rat) / (now - j.lastUpdate))
    ∧ (updateStatsStep j now).1.lastUpdate = now
    ∧ (updateStatsStep j now).2 = true
    ∧ (∀ j2 : StatJob, j2.status = DownloadStatus.downloading → j2.size = 0 →
        (updateStatsStep j2 now).1.progress = j2.progress) := by
  have hd : (0 : Rat) < now - j.lastUpdate := by
    exact sub_pos.mpr hnow
  refine ⟨?_, ?_, ?_, ?_, ?_⟩
  · simp [updateStatsStep, hst, hsz]
  · simp [updateStatsStep, hst, hlu, hd]
  · simp [updateStatsStep, hst]
  · simp [updateStatsStep, hst]
  · intro j2 h1 h2
    simp [updateStatsStep, h1, h2]

/-- Witness for C8's amended statement at the sample job observed at
time 2. -/
theorem update_stats_amended_witness :
    (updateStatsStep statJobDemo 2).2 = true :=
  (update_stats_amended statJobDemo 2 rfl (by decide) (by decide)
    (by decide)).2.2.2.1

/-- C10: the claim that a direct StartDownload call on a record whose
persisted status is not Downloading constructs and registers a job
unconditionally is false at a concrete input: a freshly inserted record
(persisted status Pending, error column NULL) makes storage.GetDownload
fail with the NULL-error-column Scan error, so StartDownload returns that
error and registers no job. -/
theorem start_on_fresh_record_scan_fails_cx :
    (lookupRow (SaveDownload [] sampleDownload).2 1).map StoreRow.statusCode
      = some DownloadStatus.pending.code
    ∧ StartDownload
        { db := (SaveDownload [] sampleDownload).2, jobs := [], active := 0,
          queue := [] } 1
      = Except.error (StartErr.store ScanErr.nullToString) :=
  ⟨rfl, rfl⟩

/-- C10 as amended: a direct StartDownload call registers a job for every
record that loads successfully (its error column non-NULL, as for records
PauseDownload has persisted) and whose loaded status is not Downloading,
without consulting the count of active downloads — its success is
independent of the registry contents and of the activeDownloads counter —
while a record whose row was never written by UpdateDownload fails to load
and registers nothing; only the processQueue tick checks the
max_concurrent_downloads budget, and it admits nothing once the active
count has reached the maximum; consequently, with the default budget of 3
and the activeDownloads counter already at 3, four direct starts on the
four Paused records of demoDB leave four live jobs in the registry. -/
theorem start_bypasses_concurrency_budget :
    DefaultConfig.maxConcurrentDownloads = 3
    ∧ (startAll { db := demoDB, jobs := [], active := 3, queue := [] }
        [1, 2, 3, 4]).jobs.length = 4
    ∧ (∀ (db : List (Int × StoreRow)) (j1 j2 : List Int) (a1 a2 : Int)
        (q1 q2 : List Download) (i : Int),
        (StartDownload { db := db, jobs := j1, active := a1, queue := q1 } i).isOk
          = (StartDownload { db := db, jobs := j2, active := a2, queue := q2 } i).isOk)
    ∧ (∀ (s : MgrState) (mx : Int), mx ≤ s.active →
        processQueueTick s mx = (s, none)) := by
  refine ⟨rfl, by decide, ?_, ?_⟩
  · intro db j1 j2 a1 a2 q1 q2 i
    cases h : GetDownload db i with
    | error e => simp [StartDownload, h]
    | ok d =>
      by_cases hd : d.status = DownloadStatus.downloading
      · simp [StartDownload, h, hd, Except.isOk]
      · simp [StartDownload, h, hd, Except.isOk]
        rfl
  · intro s mx h
    simp [processQueueTick, show ¬ s.active < mx by omega]

/-- Witness for C10's amended statement at concrete inputs: starting
record 1 of demoDB behaves identically with an empty and with a loaded
registry and counter, and a tick with the active count at 5 against a
budget of 3 admits nothing. -/
theorem start_bypasses_concurrency_budget_witness :
    (StartDownload { db := demoDB, jobs := [], active := 0, queue := [] } 1).isOk
      = (StartDownload
          { db := demoDB, jobs := [7, 8, 9], active := 99, queue := [] } 1).isOk
    ∧ processQueueTick { db := [], jobs := [], active := 5, queue := [] } 3
      = ({ db := [], jobs := [], active := 5, queue := [] }, none) := by
  constructor
  · exact start_bypasses_concurrency_budget.2.2.1 demoDB [] [7, 8, 9] 0 99 [] [] 1
  · exact start_bypasses_concurrency_budget.2.2.2
      { db := [], jobs := [], active := 5, queue := [] } 3 (by norm_num)

end IDM
